import Mathlib

/-!
# Verification of the HMAC-signed download-URL subsystem of `viur-core/utils.py`

This development shallowly embeds the functions `hmacSign`, `hmacVerify` and
`downloadUrlFor` from `src/utils.py`, together with the token verifier
described by the specification (the verifier itself is not part of
`src/utils.py`; it is modelled from the spec).

Modelling conventions:
* Python byte strings and (UTF-8) text strings are modelled as `List Nat`,
  each element one byte.  String literals are injected with `lit`, which
  UTF-8-encodes a Lean string.
* The hash function `hashlib.sha3_384` is an external primitive; it is
  modelled as an abstract parameter `H : List Nat → List Nat` mapping a
  message to its digest bytes.  The HMAC construction itself (key
  preparation, inner/outer pads, block size 104 = the SHA3-384 block size
  used by the Python `hmac` module) is embedded concretely.
* The process-wide secret `conf["viur.file.hmacKey"]` is modelled as an
  explicit `Option (List Nat)` argument (`none` = unset).
* The failing `assert` in `hmacSign` is modelled with `Except SigError`.
* Wall-clock time (`datetime.now()`) is an explicit argument of type
  `PyDateTime`, a civil-calendar instant at second granularity;
  `timedelta` arguments are modelled as `Option Nat` (seconds, `none` =
  Python `None`).
-/

/-- UTF-8 encoding of a single character, as byte values. -/
def utf8EncodeChar (c : Char) : List Nat :=
  let n := c.toNat
  if n < 0x80 then [n]
  else if n < 0x800 then [0xC0 + n / 64, 0x80 + n % 64]
  else if n < 0x10000 then [0xE0 + n / 4096, 0x80 + n / 64 % 64, 0x80 + n % 64]
  else [0xF0 + n / 262144, 0x80 + n / 4096 % 64, 0x80 + n / 64 % 64, 0x80 + n % 64]

/-- UTF-8 encoding of a character list. -/
def utf8EncodeChars : List Char → List Nat
  | [] => []
  | c :: cs => utf8EncodeChar c ++ utf8EncodeChars cs

/-- UTF-8 encoding of a string (`str.encode("UTF-8")` in Python). -/
def utf8Encode (s : String) : List Nat := utf8EncodeChars s.data

/-- A Python string literal, as its UTF-8 byte sequence. -/
def lit (s : String) : List Nat := utf8Encode s

/-- One lowercase hexadecimal digit byte for a value `0 ≤ n ≤ 15`. -/
def hexDigit (n : Nat) : Nat := if n < 10 then 48 + n else 87 + n

/-- Lowercase hexadecimal rendering of a byte sequence
(`hexdigest()` of Python hash objects), as ASCII bytes. -/
def hexdigest : List Nat → List Nat
  | [] => []
  | b :: bs => hexDigit (b / 16) :: hexDigit (b % 16) :: hexdigest bs

/-- Block size (in bytes) that the Python `hmac` module uses for
`hashlib.sha3_384` (`sha3_384().block_size = 104`). -/
def hmacBlockSize : Nat := 104

/-- HMAC key preparation: a key longer than the block size is replaced by
its digest, then the key is zero-padded to the block size. -/
def hmacKeyPrep (H : List Nat → List Nat) (key : List Nat) : List Nat :=
  let k := if hmacBlockSize < key.length then H key else key
  k ++ List.replicate (hmacBlockSize - k.length) 0

/-- The HMAC construction of Python `hmac.new(key, msg, digestmod).digest()`
(RFC 2104): `H((k ⊕ opad) ++ H((k ⊕ ipad) ++ msg))` with the prepared key. -/
def hmacBytes (H : List Nat → List Nat) (key msg : List Nat) : List Nat :=
  let k := hmacKeyPrep H key
  H ((k.map (fun b => b ^^^ 0x5c)) ++ H ((k.map (fun b => b ^^^ 0x36)) ++ msg))

/-- The error raised by the failing `assert` in `hmacSign`
(`"No hmac-key set!"`); the spec calls this a `ConfigurationError`. -/
inductive SigError where
  | configError
deriving DecidableEq

/-- The `Any` argument of `hmacSign`: either already a byte sequence, or an
object whose `str()` is the given string. -/
inductive PyData where
  | bytes (bs : List Nat)
  | str (s : String)

/-- `str(data).encode("UTF-8")` applied when the input is not bytes
(`if not isinstance(data, bytes)` in the source). -/
def pyDataBytes : PyData → List Nat
  | .bytes bs => bs
  | .str s => utf8Encode s

/-- Embedding of `utils.hmacSign`:
```
assert conf["viur.file.hmacKey"] is not None, "No hmac-key set!"
if not isinstance(data, bytes):
    data = str(data).encode("UTF-8")
return hmac.new(conf["viur.file.hmacKey"], msg=data, digestmod=hashlib.sha3_384).hexdigest()
``` -/
def hmacSign (H : List Nat → List Nat) (key : Option (List Nat)) (data : PyData) :
    Except SigError (List Nat) :=
  match key with
  | none => .error .configError
  | some k => .ok (hexdigest (hmacBytes H k (pyDataBytes data)))

/-- Embedding of `utils.hmacVerify`:
`return hmac.compare_digest(hmacSign(data), signature)`.
`hmac.compare_digest` is modelled by its result (equality of the two
strings); its constant-time execution is a timing property outside the
embedding. -/
def hmacVerify (H : List Nat → List Nat) (key : Option (List Nat)) (data : PyData)
    (signature : List Nat) : Except SigError Bool :=
  match hmacSign H key data with
  | .error e => .error e
  | .ok s => .ok (decide (s = signature))

/-- A concrete stand-in digest function, used to instantiate the abstract
hash at concrete inputs (witnesses and counterexamples). -/
def Hzero : List Nat → List Nat := fun _ => List.replicate 48 0

deriving instance DecidableEq for Except

/-! ## Wall-clock time -/

/-- A civil-calendar wall-clock instant at second granularity, as produced
by Python `datetime.now()` (sub-second precision never reaches the
minute-granularity stamp format and is omitted). -/
structure PyDateTime where
  year : Nat
  month : Nat
  day : Nat
  hour : Nat
  minute : Nat
  second : Nat
deriving DecidableEq, Repr

/-- Gregorian leap-year test. -/
def isLeap (y : Nat) : Bool := (y % 4 == 0 && y % 100 != 0) || (y % 400 == 0)

/-- Number of days of month `m` in year `y`. -/
def daysInMonth (y m : Nat) : Nat :=
  if m = 2 then (if isLeap y then 29 else 28)
  else if m = 4 ∨ m = 6 ∨ m = 9 ∨ m = 11 then 30
  else 31

/-- Well-formedness of a `PyDateTime` (the invariant `datetime` maintains). -/
def PyDateTime.Valid (t : PyDateTime) : Prop :=
  1 ≤ t.month ∧ t.month ≤ 12 ∧ 1 ≤ t.day ∧ t.day ≤ daysInMonth t.year t.month ∧
    t.hour ≤ 23 ∧ t.minute ≤ 59 ∧ t.second ≤ 59

instance (t : PyDateTime) : Decidable t.Valid := by
  unfold PyDateTime.Valid; infer_instance

/-- The first day of the calendar day following `t` (time fields kept). -/
def nextDay (t : PyDateTime) : PyDateTime :=
  if t.day < daysInMonth t.year t.month then { t with day := t.day + 1 }
  else if t.month < 12 then { t with day := 1, month := t.month + 1 }
  else { t with day := 1, month := 1, year := t.year + 1 }

/-- Advance an instant by `n` calendar days. -/
def addDays (t : PyDateTime) : Nat → PyDateTime
  | 0 => t
  | n + 1 => nextDay (addDays t n)

/-- The time-of-day part of `t + timedelta(seconds=n)`: seconds carried
into minutes and hours, the day overflow not yet applied. -/
def addSecondsBase (t : PyDateTime) (n : Nat) : PyDateTime :=
  { t with
    second := (t.second + n) % 60,
    minute := (t.minute + (t.second + n) / 60) % 60,
    hour := (t.hour + (t.minute + (t.second + n) / 60) / 60) % 24 }

/-- The day overflow of `t + timedelta(seconds=n)`. -/
def addSecondsDays (t : PyDateTime) (n : Nat) : Nat :=
  (t.hour + (t.minute + (t.second + n) / 60) / 60) / 24

/-- `t + timedelta(seconds=n)` (Python `datetime + timedelta`): carry the
seconds into minutes, hours and calendar days. -/
def addSeconds (t : PyDateTime) (n : Nat) : PyDateTime :=
  addDays (addSecondsBase t n) (addSecondsDays t n)

/-- Truncation to minute granularity (what `%Y%m%d%H%M` retains). -/
def truncMin (t : PyDateTime) : PyDateTime :=
  { t with second := 0 }

/-- Order-reflecting numeric key of the minute-granularity part of an
instant: for valid instants, chronological order coincides with `≤` on
`dtKey` (month `≤ 12 < 13`, day `≤ 31 < 32`, hour `< 24`, minute `< 60`). -/
def dtKey (t : PyDateTime) : Nat :=
  (((t.year * 13 + t.month) * 32 + t.day) * 24 + t.hour) * 60 + t.minute

/-- `strftime("%Y%m%d%H%M")` for years 1000–9999 (`%Y` renders exactly the
four year digits there), as ASCII digit bytes. -/
def fmtStamp (t : PyDateTime) : List Nat :=
  [48 + t.year / 1000, 48 + t.year / 100 % 10, 48 + t.year / 10 % 10, 48 + t.year % 10,
   48 + t.month / 10, 48 + t.month % 10,
   48 + t.day / 10, 48 + t.day % 10,
   48 + t.hour / 10, 48 + t.hour % 10,
   48 + t.minute / 10, 48 + t.minute % 10]

/-! ## base64url -/

/-- The URL-safe base64 alphabet: sextet value to ASCII byte. -/
def b64Char (n : Nat) : Nat :=
  if n < 26 then 65 + n
  else if n < 52 then 97 + (n - 26)
  else if n < 62 then 48 + (n - 52)
  else if n = 62 then 45
  else 95

/-- `base64.urlsafe_b64encode`: bytes to ASCII bytes, `=`-padded. -/
def urlsafeB64encode : List Nat → List Nat
  | a :: b :: c :: rest =>
    b64Char (a / 4) :: b64Char (a % 4 * 16 + b / 16) :: b64Char (b % 16 * 4 + c / 64)
      :: b64Char (c % 64) :: urlsafeB64encode rest
  | [a, b] => [b64Char (a / 4), b64Char (a % 4 * 16 + b / 16), b64Char (b % 16 * 4), 61]
  | [a] => [b64Char (a / 4), b64Char (a % 4 * 16), 61, 61]
  | [] => []

/-- Inverse of the URL-safe base64 alphabet. -/
def b64CharInv (c : Nat) : Option Nat :=
  if 65 ≤ c ∧ c ≤ 90 then some (c - 65)
  else if 97 ≤ c ∧ c ≤ 122 then some (c - 97 + 26)
  else if 48 ≤ c ∧ c ≤ 57 then some (c - 48 + 52)
  else if c = 45 then some 62
  else if c = 95 then some 63
  else none

/-- Modelled from the spec: strict base64url decoding ("Decodes
`encodedPath` from base64url"; "undecodable base64 → invalid" is the
`none` result). -/
def urlsafeB64decode : List Nat → Option (List Nat)
  | [] => some []
  | w :: x :: y :: z :: rest =>
    match b64CharInv w, b64CharInv x with
    | some a, some b =>
      if y = 61 ∧ z = 61 ∧ rest = [] then some [a * 4 + b / 16]
      else if z = 61 ∧ rest = [] then
        match b64CharInv y with
        | some c => some [a * 4 + b / 16, b % 16 * 16 + c / 4]
        | none => none
      else
        match b64CharInv y, b64CharInv z, urlsafeB64decode rest with
        | some c, some d, some tail =>
          some ((a * 4 + b / 16) :: (b % 16 * 16 + c / 4) :: (c % 4 * 64 + d) :: tail)
        | _, _, _ => none
    | _, _ => none
  | _ => none

/-- Modelled from the spec: "splits on the NUL separator into `filePath`
and `expiryStamp`" — exactly two parts, i.e. exactly one NUL byte
("wrong structure → invalid" is the `none` result). -/
def splitOnNul : List Nat → Option (List Nat × List Nat)
  | [] => none
  | 0 :: rest => if 0 ∈ rest then none else some ([], rest)
  | b :: rest =>
    match splitOnNul rest with
    | some (l, r) => some (b :: l, r)
    | none => none

/-- An ASCII decimal digit byte. -/
def isDigitByte (b : Nat) : Bool := 48 ≤ b && b ≤ 57

/-- Modelled from the spec: "parse as a minute-granularity timestamp"
(`datetime.strptime(_, "%Y%m%d%H%M")`): twelve digit bytes with
calendar-valid fields; anything else is `none` ("unparsable timestamp →
invalid"). -/
def parseStamp (bs : List Nat) : Option PyDateTime :=
  match bs with
  | [y3, y2, y1, y0, o1, o0, d1, d0, h1, h0, m1, m0] =>
    if isDigitByte y3 && isDigitByte y2 && isDigitByte y1 && isDigitByte y0 &&
        isDigitByte o1 && isDigitByte o0 && isDigitByte d1 && isDigitByte d0 &&
        isDigitByte h1 && isDigitByte h0 && isDigitByte m1 && isDigitByte m0 then
      let t : PyDateTime :=
        { year := (y3 - 48) * 1000 + (y2 - 48) * 100 + (y1 - 48) * 10 + (y0 - 48),
          month := (o1 - 48) * 10 + (o0 - 48),
          day := (d1 - 48) * 10 + (d0 - 48),
          hour := (h1 - 48) * 10 + (h0 - 48),
          minute := (m1 - 48) * 10 + (m0 - 48),
          second := 0 }
      if t.Valid then some t else none
    else none
  | _ => none

/-! ## The issuer and the verifier -/

/-- The logical file path built by `downloadUrlFor`:
```
if derived:
    filePath = "%s/derived/%s" % (folder, fileName)
else:
    filePath = "%s/source/%s" % (folder, fileName)
``` -/
def filePathFor (folder fileName : List Nat) (derived : Bool) : List Nat :=
  if derived then folder ++ lit "/derived/" ++ fileName
  else folder ++ lit "/source/" ++ fileName

/-- The expiry-stamp part of the payload built by `downloadUrlFor`:
`(datetime.now() + expires).strftime("%Y%m%d%H%M") if expires else 0`.
A `timedelta` is falsy exactly when it is zero, so both `None` and a
zero `timedelta` take the sentinel branch (the int `0` is rendered by
`"%s"` as the byte `"0"`). -/
def expiryStamp (now : PyDateTime) (expires : Option Nat) : List Nat :=
  match expires with
  | none => lit "0"
  | some n => if n = 0 then lit "0" else fmtStamp (addSeconds now n)

/-- Embedding of `utils.downloadUrlFor`:
```
sigStr = "%s\0%s" % (filePath, (... strftime ... if expires else 0))
sigStr = urlsafe_b64encode(sigStr.encode("UTF-8"))
resstr = hmacSign(sigStr)
return "/file/download/%s?sig=%s" % (sigStr.decode("ASCII"), resstr)
```
Defaults mirror the Python signature (`derived=False`,
`expires=timedelta(hours=1)` = 3600 seconds). -/
def downloadUrlFor (H : List Nat → List Nat) (key : Option (List Nat)) (now : PyDateTime)
    (folder fileName : List Nat) (derived : Bool := false)
    (expires : Option Nat := some 3600) : Except SigError (List Nat) :=
  let sigStr := urlsafeB64encode (filePathFor folder fileName derived ++ 0 :: expiryStamp now expires)
  (hmacSign H key (.bytes sigStr)).map
    (fun resstr => lit "/file/download/" ++ sigStr ++ lit "?sig=" ++ resstr)

/-- Modelled from the spec: `verifyDownloadURL(encodedPath, signature)`
(the verifier is not part of `src/utils.py`).  Following §4.1:
recompute `verify(encodedPath, signature)`, on failure return invalid
with no path; decode base64url and split on NUL; the sentinel stamp
`"0"` never expires; otherwise parse the minute-granularity stamp and
accept iff the current time is at or before it (inclusive, compared at
minute granularity); any malformed payload is invalid, never an
exception.  The only raised error is the missing-key assert of `hmacSign`. -/
def verifyDownloadURL (H : List Nat → List Nat) (key : Option (List Nat)) (now : PyDateTime)
    (encodedPath signature : List Nat) : Except SigError (Bool × Option (List Nat)) :=
  match hmacVerify H key (.bytes encodedPath) signature with
  | .error e => .error e
  | .ok false => .ok (false, none)
  | .ok true =>
    match urlsafeB64decode encodedPath with
    | none => .ok (false, none)
    | some payload =>
      match splitOnNul payload with
      | none => .ok (false, none)
      | some (fp, stamp) =>
        if stamp = lit "0" then .ok (true, some fp)
        else
          match parseStamp stamp with
          | none => .ok (false, none)
          | some texp => .ok (decide (dtKey now ≤ dtKey texp), some fp)

/-! ## Helper lemmas -/

/-- The base64url alphabet inverts its encoding on sextet values. -/
theorem b64CharInv_b64Char : ∀ n, n < 64 → b64CharInv (b64Char n) = some n := by decide

/-- No sextet encodes to the padding byte 61 (ASCII equals sign). -/
theorem b64Char_ne_61 (n : Nat) : b64Char n ≠ 61 := by
  unfold b64Char; split_ifs <;> omega

/-- Strict base64url decoding inverts encoding on byte sequences. -/
theorem b64_roundtrip :
    ∀ bs : List Nat, (∀ x ∈ bs, x < 256) →
      urlsafeB64decode (urlsafeB64encode bs) = some bs
  | [], _ => rfl
  | [a], h => by
    have ha : a < 256 := h a (by simp)
    simp only [urlsafeB64encode, urlsafeB64decode]
    rw [b64CharInv_b64Char _ (by omega), b64CharInv_b64Char _ (by omega)]
    simp [b64Char_ne_61]
    omega
  | [a, b], h => by
    have ha : a < 256 := h a (by simp)
    have hb : b < 256 := h b (by simp)
    simp only [urlsafeB64encode, urlsafeB64decode]
    rw [b64CharInv_b64Char _ (by omega), b64CharInv_b64Char _ (by omega),
      b64CharInv_b64Char _ (by omega)]
    simp [b64Char_ne_61]
    omega
  | a :: b :: c :: rest, h => by
    have ha : a < 256 := h a (by simp)
    have hb : b < 256 := h b (by simp)
    have hc : c < 256 := h c (by simp)
    have ih := b64_roundtrip rest (fun x hx => h x (by simp [hx]))
    simp only [urlsafeB64encode, urlsafeB64decode]
    rw [b64CharInv_b64Char _ (by omega), b64CharInv_b64Char _ (by omega),
      b64CharInv_b64Char _ (by omega), b64CharInv_b64Char _ (by omega), ih]
    simp [b64Char_ne_61]
    omega


/-- Splitting on NUL recovers the two NUL-free parts of the payload. -/
theorem splitOnNul_append :
    ∀ l r : List Nat, (∀ x ∈ l, x ≠ 0) → (∀ x ∈ r, x ≠ 0) →
      splitOnNul (l ++ 0 :: r) = some (l, r)
  | [], r, _, hr => by
    simp only [List.nil_append, splitOnNul]
    rw [if_neg (fun h0 => hr 0 h0 rfl)]
  | b :: l, r, hl, hr => by
    have hb : b ≠ 0 := hl b (by simp)
    have ih := splitOnNul_append l r (fun x hx => hl x (by simp [hx])) hr
    match b, hb with
    | b + 1, _ =>
      simp only [List.cons_append, splitOnNul]
      rw [show (l.append (0 :: r) : List Nat) = l ++ 0 :: r from rfl, ih]

/-- Months have between 28 and 31 days. -/
theorem daysInMonth_bounds (y m : Nat) : 28 ≤ daysInMonth y m ∧ daysInMonth y m ≤ 31 := by
  unfold daysInMonth; split_ifs <;> omega

/-- `nextDay` preserves validity and advances the minute key by at least
one day (1440 minutes). -/
theorem nextDay_valid_key (t : PyDateTime) (hv : t.Valid) :
    (nextDay t).Valid ∧ dtKey t + 1440 ≤ dtKey (nextDay t) := by
  obtain ⟨h1, h2, h3, h4, h5, h6, h7⟩ := hv
  have hb := daysInMonth_bounds t.year t.month
  have hb2 := daysInMonth_bounds t.year (t.month + 1)
  have hb3 := daysInMonth_bounds (t.year + 1) 1
  unfold nextDay
  split_ifs with hd hm <;>
    exact ⟨⟨by dsimp only; omega, by dsimp only; omega, by dsimp only; omega,
      by dsimp only; omega, by dsimp only; omega, by dsimp only; omega, by dsimp only; omega⟩,
      by unfold dtKey; dsimp only; omega⟩

/-- `addDays` preserves validity and advances the minute key by at least
1440 minutes per day. -/
theorem addDays_valid_key (t : PyDateTime) (hv : t.Valid) :
    ∀ n, (addDays t n).Valid ∧ dtKey t + 1440 * n ≤ dtKey (addDays t n)
  | 0 => ⟨hv, by simp only [addDays]; omega⟩
  | n + 1 => by
    obtain ⟨ih1, ih2⟩ := addDays_valid_key t hv n
    obtain ⟨hnv, hnk⟩ := nextDay_valid_key _ ih1
    exact ⟨hnv, by simp only [addDays]; omega⟩

/-- `addSeconds` preserves validity and never moves the minute key
backwards. -/
theorem addSeconds_valid_key (t : PyDateTime) (hv : t.Valid) (n : Nat) :
    (addSeconds t n).Valid ∧ dtKey t ≤ dtKey (addSeconds t n) := by
  obtain ⟨h1, h2, h3, h4, h5, h6, h7⟩ := hv
  have hbv : (addSecondsBase t n).Valid := by
    unfold addSecondsBase
    exact ⟨by dsimp only; omega, by dsimp only; omega, by dsimp only; omega,
      by dsimp only; omega, by dsimp only; omega, by dsimp only; omega, by dsimp only; omega⟩
  obtain ⟨hav, hak⟩ := addDays_valid_key (addSecondsBase t n) hbv (addSecondsDays t n)
  refine ⟨hav, ?_⟩
  have hkey : dtKey t ≤ dtKey (addSecondsBase t n) + 1440 * addSecondsDays t n := by
    unfold dtKey addSecondsBase addSecondsDays; dsimp only; omega
  calc dtKey t ≤ dtKey (addSecondsBase t n) + 1440 * addSecondsDays t n := hkey
    _ ≤ dtKey (addSeconds t n) := hak

/-- All bytes of a formatted stamp are ASCII digits (valid instant,
four-digit year). -/
theorem fmtStamp_digits (t : PyDateTime) (hv : t.Valid) (hy : t.year ≤ 9999) :
    ∀ b ∈ fmtStamp t, 48 ≤ b ∧ b ≤ 57 := by
  obtain ⟨h1, h2, h3, h4, h5, h6, h7⟩ := hv
  have hb := daysInMonth_bounds t.year t.month
  intro b hbm
  simp only [fmtStamp, List.mem_cons, List.not_mem_nil, or_false] at hbm
  rcases hbm with rfl | rfl | rfl | rfl | rfl | rfl | rfl | rfl | rfl | rfl | rfl | rfl <;> omega

/-- A formatted stamp is parsed back to the minute truncation of the
instant (valid instant, four-digit year). -/
theorem parseStamp_fmtStamp (t : PyDateTime) (hv : t.Valid) (hy : t.year ≤ 9999) :
    parseStamp (fmtStamp t) = some (truncMin t) := by
  obtain ⟨h1, h2, h3, h4, h5, h6, h7⟩ := hv
  have hb := daysInMonth_bounds t.year t.month
  simp only [fmtStamp, parseStamp, isDigitByte]
  rw [if_pos]
  case hc =>
    simp only [Bool.and_eq_true, decide_eq_true_eq]
    omega
  have hyr : (48 + t.year / 1000 - 48) * 1000 + (48 + t.year / 100 % 10 - 48) * 100 +
      (48 + t.year / 10 % 10 - 48) * 10 + (48 + t.year % 10 - 48) = t.year := by omega
  have hmo : (48 + t.month / 10 - 48) * 10 + (48 + t.month % 10 - 48) = t.month := by omega
  have hdy : (48 + t.day / 10 - 48) * 10 + (48 + t.day % 10 - 48) = t.day := by omega
  have hhr : (48 + t.hour / 10 - 48) * 10 + (48 + t.hour % 10 - 48) = t.hour := by omega
  have hmi : (48 + t.minute / 10 - 48) * 10 + (48 + t.minute % 10 - 48) = t.minute := by omega
  simp only [hyr, hmo, hdy, hhr, hmi]
  rw [if_pos]
  case hc => exact ⟨h1, h2, h3, h4, h5, h6, by dsimp only; omega⟩
  rfl

/-- A formatted stamp is never the sentinel byte string `"0"`. -/
theorem fmtStamp_ne_lit_zero (t : PyDateTime) : fmtStamp t ≠ lit "0" := by
  intro h
  have := congrArg List.length h
  simp [fmtStamp, lit, utf8Encode, utf8EncodeChars, utf8EncodeChar] at this

/-- Every byte emitted by `hexdigest` on bytes below 256 is a lowercase
hexadecimal digit (`0`–`9` or `a`–`f`). -/
theorem hexdigest_lower :
    ∀ bs : List Nat, (∀ x ∈ bs, x < 256) →
      ∀ c ∈ hexdigest bs, (48 ≤ c ∧ c ≤ 57) ∨ (97 ≤ c ∧ c ≤ 102)
  | [], _ => by simp [hexdigest]
  | b :: bs, h => by
    have hb : b < 256 := h b (by simp)
    have ih := hexdigest_lower bs (fun x hx => h x (by simp [hx]))
    intro c hc
    simp only [hexdigest, List.mem_cons] at hc
    rcases hc with rfl | rfl | hc3
    · unfold hexDigit; split_ifs <;> omega
    · unfold hexDigit; split_ifs <;> omega
    · exact ih c hc3

/-- Verifying a freshly produced signature over the same data under the
same key succeeds. -/
theorem hmacVerify_sign_self (H : List Nat → List Nat) (k bs : List Nat) :
    hmacVerify H (some k) (.bytes bs) (hexdigest (hmacBytes H k bs)) = .ok true := by
  simp [hmacVerify, hmacSign, pyDataBytes]

/-- The stamp format ignores the seconds field. -/
theorem fmtStamp_truncMin (t : PyDateTime) : fmtStamp (truncMin t) = fmtStamp t := rfl

/-! ## Claims -/

/-- C2: for every input, `hmacVerify(data, signature)` returns true iff the
signature equals `hmacSign(data)`; it always returns a boolean and never
raises for a mismatched signature — it fails exactly on the
missing-secret-key precondition of `hmacSign`. -/
theorem C2_hmacVerify_iff (H : List Nat → List Nat) (key : Option (List Nat))
    (data : PyData) (signature : List Nat) :
    (hmacVerify H key data signature = .ok true ↔ hmacSign H key data = .ok signature)
    ∧ ((∃ b, hmacVerify H key data signature = .ok b) ↔ ∃ s, hmacSign H key data = .ok s)
    ∧ (hmacVerify H key data signature = .error .configError ↔ key = none) := by
  cases key <;> simp [hmacVerify, hmacSign]

/-- C3: `hmacSign` computes the HMAC (with the SHA3-384 digest, modelled by
the abstract digest function `H` at block size 104) of the input under the
process secret key and returns it as lowercase hexadecimal; an input that
is not already a byte sequence is first stringified and UTF-8 encoded. -/
theorem C3_hmacSign_hmac_lowercase_hex (H : List Nat → List Nat) (k bs : List Nat) (s : String)
    (hH : ∀ x ∈ hmacBytes H k bs, x < 256) :
    hmacSign H (some k) (.bytes bs) = .ok (hexdigest (hmacBytes H k bs))
    ∧ hmacSign H (some k) (.str s) = .ok (hexdigest (hmacBytes H k (utf8Encode s)))
    ∧ ∀ c ∈ hexdigest (hmacBytes H k bs), (48 ≤ c ∧ c ≤ 57) ∨ (97 ≤ c ∧ c ≤ 102) :=
  ⟨rfl, rfl, hexdigest_lower _ hH⟩

/-- C3 witness: the statement instantiated at the stand-in digest, the
empty key and empty inputs. -/
theorem C3_hmacSign_hmac_lowercase_hex_witness :
    (∀ x ∈ hmacBytes Hzero [] [], x < 256)
    ∧ (hmacSign Hzero (some []) (.bytes []) = .ok (hexdigest (hmacBytes Hzero [] []))
      ∧ hmacSign Hzero (some []) (.str "") = .ok (hexdigest (hmacBytes Hzero [] (utf8Encode "")))
      ∧ ∀ c ∈ hexdigest (hmacBytes Hzero [] []), (48 ≤ c ∧ c ≤ 57) ∨ (97 ≤ c ∧ c ≤ 102)) :=
  ⟨by decide, C3_hmacSign_hmac_lowercase_hex Hzero [] [] "" (by decide)⟩

/-- C4 counterexample: the claim says an empty secret key raises the
ConfigurationError, but the `assert` in the code only checks `is not None`:
with the configured empty key the call succeeds (returning 96 zero hex
digits for the stand-in digest) instead of raising. -/
theorem C4_counterexample :
    hmacSign Hzero (some []) (.bytes []) = .ok (List.replicate 96 48) := by decide

/-- C4 (amended): `hmacSign` (and hence `hmacVerify` and `downloadUrlFor`)
raises the ConfigurationError exactly when the secret key is absent
(`None`); every configured key — including the empty one — is accepted and
the call returns normally. -/
theorem C4_amended_configError_iff (H : List Nat → List Nat) (key : Option (List Nat))
    (data : PyData) :
    (hmacSign H key data = .error .configError ↔ key = none)
    ∧ ∀ k, hmacSign H (some k) data = .ok (hexdigest (hmacBytes H k (pyDataBytes data))) := by
  cases key <;> simp [hmacSign]

/-- C7: the logical file path built by `downloadUrlFor` is
`{folder}/derived/{fileName}` when `derived` is true and
`{folder}/source/{fileName}` when it is false. -/
theorem C7_filePath (folder fileName : List Nat) :
    filePathFor folder fileName true = folder ++ lit "/derived/" ++ fileName
    ∧ filePathFor folder fileName false = folder ++ lit "/source/" ++ fileName :=
  ⟨rfl, rfl⟩

/-- C10: a zero (non-null but falsy) ttl takes the never-expires sentinel
branch exactly as a null ttl does, and omitting the `expires` argument
defaults the ttl to one hour (3600 seconds). -/
theorem C10_zero_ttl_and_default (H : List Nat → List Nat) (key : Option (List Nat))
    (now : PyDateTime) (folder fileName : List Nat) (derived : Bool) :
    downloadUrlFor H key now folder fileName derived (some 0)
      = downloadUrlFor H key now folder fileName derived none
    ∧ downloadUrlFor H key now folder fileName derived
      = downloadUrlFor H key now folder fileName derived (some 3600) :=
  ⟨rfl, rfl⟩

/-- C6: `downloadUrlFor` returns exactly
`"/file/download/" ++ encodedPath ++ "?sig=" ++ signature`, where
`encodedPath` is the base64url encoding of `filePath ++ NUL ++ expiryStamp`
and the signature is `hmacSign` applied to `encodedPath` itself (the
encoded string, not the raw payload). -/
theorem C6_url_structure (H : List Nat → List Nat) (k : List Nat) (now : PyDateTime)
    (folder fileName : List Nat) (derived : Bool) (expires : Option Nat) :
    downloadUrlFor H (some k) now folder fileName derived expires =
      .ok (lit "/file/download/"
        ++ urlsafeB64encode (filePathFor folder fileName derived ++ 0 :: expiryStamp now expires)
        ++ lit "?sig="
        ++ hexdigest (hmacBytes H k
            (urlsafeB64encode (filePathFor folder fileName derived ++ 0 :: expiryStamp now expires)))) :=
  rfl

/-- C5 counterexample: at a zero — non-null — ttl the embedded expiry
stamp is the sentinel `"0"` and not, as the claim states, the formatted
time `now + ttl`. -/
theorem C5_counterexample :
    expiryStamp ⟨2024, 1, 1, 0, 0, 0⟩ (some 0) = lit "0"
    ∧ expiryStamp ⟨2024, 1, 1, 0, 0, 0⟩ (some 0) ≠ fmtStamp (addSeconds ⟨2024, 1, 1, 0, 0, 0⟩ 0) := by
  decide

/-- C5 (amended): the expiry stamp embedded by `downloadUrlFor` is the
sentinel `"0"` when the ttl is null or a zero duration, and otherwise is
`now + ttl` formatted as the minute-granularity timestamp `YYYYMMDDHHMM`;
equivalently, a zero-ttl call coincides with a null-ttl call. -/
theorem C5_amended_expiry_stamp (H : List Nat → List Nat) (key : Option (List Nat))
    (now : PyDateTime) (folder fileName : List Nat) (derived : Bool) (expires : Option Nat) :
    expiryStamp now expires =
      (if expires = none ∨ expires = some 0 then lit "0"
       else fmtStamp (addSeconds now (expires.getD 0)))
    ∧ downloadUrlFor H key now folder fileName derived expires
      = downloadUrlFor H key now folder fileName derived
          (if expires = some 0 then none else expires) := by
  match expires with
  | none => exact ⟨rfl, rfl⟩
  | some 0 => exact ⟨rfl, rfl⟩
  | some (m + 1) => simp [expiryStamp]

/-- C8 counterexample: two calls with identical arguments at wall-clock
times in the same calendar minute can produce different URLs: with a
90-second ttl, calls at second 10 and second 50 of the same minute land in
different expiry minutes. -/
theorem C8_counterexample :
    downloadUrlFor Hzero (some []) ⟨2024, 1, 1, 0, 0, 10⟩ (lit "a") (lit "b") false (some 90)
      ≠ downloadUrlFor Hzero (some []) ⟨2024, 1, 1, 0, 0, 50⟩ (lit "a") (lit "b") false (some 90) := by
  decide

/-- C8 (amended): `downloadUrlFor` is a pure function of its arguments and
the wall clock, and two calls with identical folder, fileName, derived and
ttl arguments produce byte-identical output whenever the two expiry
instants `now + ttl` fall in the same calendar minute — in particular
whenever the ttl is a whole number of minutes and the calls fall in the
same calendar minute and second offset, and always when the ttl is null or
zero. -/
theorem C8_amended_determinism (H : List Nat → List Nat) (key : Option (List Nat))
    (folder fileName : List Nat) (derived : Bool) (expires : Option Nat) (t1 t2 : PyDateTime)
    (h : truncMin (addSeconds t1 (expires.getD 0)) = truncMin (addSeconds t2 (expires.getD 0))) :
    downloadUrlFor H key t1 folder fileName derived expires
      = downloadUrlFor H key t2 folder fileName derived expires := by
  suffices hs : expiryStamp t1 expires = expiryStamp t2 expires by
    unfold downloadUrlFor
    rw [hs]
  match expires with
  | none => rfl
  | some 0 => rfl
  | some (m + 1) =>
    simp only [expiryStamp, if_neg (by omega : ¬ m + 1 = 0)]
    rw [← fmtStamp_truncMin (addSeconds t1 (m + 1)), ← fmtStamp_truncMin (addSeconds t2 (m + 1))]
    rw [show truncMin (addSeconds t1 (m + 1)) = truncMin (addSeconds t2 (m + 1)) from h]

/-- C8 witness: two calls 30 seconds apart with a one-minute ttl whose
expiry instants share the minute 2024-01-01 00:01. -/
theorem C8_amended_determinism_witness :
    truncMin (addSeconds ⟨2024, 1, 1, 0, 0, 10⟩ ((some 60).getD 0))
      = truncMin (addSeconds ⟨2024, 1, 1, 0, 0, 40⟩ ((some 60).getD 0))
    ∧ downloadUrlFor Hzero (some []) ⟨2024, 1, 1, 0, 0, 10⟩ (lit "a") (lit "b") false (some 60)
      = downloadUrlFor Hzero (some []) ⟨2024, 1, 1, 0, 0, 40⟩ (lit "a") (lit "b") false (some 60) :=
  ⟨by decide,
    C8_amended_determinism Hzero (some []) (lit "a") (lit "b") false (some 60)
      ⟨2024, 1, 1, 0, 0, 10⟩ ⟨2024, 1, 1, 0, 0, 40⟩ (by decide)⟩

/-- The minute key ignores the seconds field. -/
theorem dtKey_truncMin (t : PyDateTime) : dtKey (truncMin t) = dtKey t := rfl

/-- C1: round-trip validity: for every FileLocation (NUL-free folder and
fileName byte strings, derived flag) and every ttl (non-negative duration
or null), verifying the token produced by `downloadUrlFor` — its
encodedPath and signature — at the same wall-clock time at which it was
issued returns valid (the validity invariant of the spec); the wall clock
is any valid instant whose expiry lands in the four-digit-year range of
the stamp format. -/
theorem C1_roundtrip_valid (H : List Nat → List Nat) (k : List Nat) (now : PyDateTime)
    (folder fileName : List Nat) (derived : Bool) (expires : Option Nat)
    (hf : ∀ b ∈ folder, 0 < b ∧ b < 256) (hn : ∀ b ∈ fileName, 0 < b ∧ b < 256)
    (hv : now.Valid)
    (hy1 : 1000 ≤ (addSeconds now (expires.getD 0)).year)
    (hy2 : (addSeconds now (expires.getD 0)).year ≤ 9999) :
    downloadUrlFor H (some k) now folder fileName derived expires =
      .ok (lit "/file/download/"
        ++ urlsafeB64encode (filePathFor folder fileName derived ++ 0 :: expiryStamp now expires)
        ++ lit "?sig="
        ++ hexdigest (hmacBytes H k
            (urlsafeB64encode (filePathFor folder fileName derived ++ 0 :: expiryStamp now expires))))
    ∧ verifyDownloadURL H (some k) now
        (urlsafeB64encode (filePathFor folder fileName derived ++ 0 :: expiryStamp now expires))
        (hexdigest (hmacBytes H k
          (urlsafeB64encode (filePathFor folder fileName derived ++ 0 :: expiryStamp now expires))))
      = .ok (true, some (filePathFor folder fileName derived)) := by
  refine ⟨rfl, ?_⟩
  have hlitD : ∀ x ∈ lit "/derived/", 0 < x ∧ x < 256 := by decide
  have hlitS : ∀ x ∈ lit "/source/", 0 < x ∧ x < 256 := by decide
  have hfpB : ∀ x ∈ filePathFor folder fileName derived, 0 < x ∧ x < 256 := by
    intro x hx
    cases derived <;> simp only [filePathFor, if_true, if_false, Bool.false_eq_true,
      List.mem_append] at hx
    · rcases hx with (hx | hx) | hx
      · exact hf x hx
      · exact hlitS x hx
      · exact hn x hx
    · rcases hx with (hx | hx) | hx
      · exact hf x hx
      · exact hlitD x hx
      · exact hn x hx
  have hstB : ∀ x ∈ expiryStamp now expires, 48 ≤ x ∧ x ≤ 57 := by
    have hz : ∀ x ∈ lit "0", 48 ≤ x ∧ x ≤ 57 := by decide
    match expires with
    | none => exact hz
    | some 0 => exact hz
    | some (m + 1) =>
      have hT := addSeconds_valid_key now hv (m + 1)
      intro x hx
      simp only [expiryStamp, Nat.succ_ne_zero, if_false] at hx
      exact fmtStamp_digits _ hT.1 hy2 x hx
  have hpay : ∀ x ∈ filePathFor folder fileName derived ++ 0 :: expiryStamp now expires, x < 256 := by
    intro x hx
    simp only [List.mem_append, List.mem_cons] at hx
    rcases hx with hx | rfl | hx
    · exact (hfpB x hx).2
    · omega
    · have := hstB x hx; omega
  have h1 := hmacVerify_sign_self H k
    (urlsafeB64encode (filePathFor folder fileName derived ++ 0 :: expiryStamp now expires))
  have h2 := b64_roundtrip _ hpay
  have h3 := splitOnNul_append (filePathFor folder fileName derived) (expiryStamp now expires)
    (fun x hx => by have := hfpB x hx; omega) (fun x hx => by have := hstB x hx; omega)
  unfold verifyDownloadURL
  rw [h1]
  simp only [h2, h3]
  match expires with
  | none => rw [if_pos (show expiryStamp now none = lit "0" from rfl)]
  | some 0 => rw [if_pos (show expiryStamp now (some 0) = lit "0" from rfl)]
  | some (m + 1) =>
    have hT := addSeconds_valid_key now hv (m + 1)
    simp only [expiryStamp, Nat.succ_ne_zero, if_false]
    rw [if_neg (fmtStamp_ne_lit_zero _)]
    rw [parseStamp_fmtStamp _ hT.1 hy2]
    simp only [dtKey_truncMin]
    simp [decide_eq_true_eq, hT.2]

/-- C1 witness: the round trip at the concrete scenario of the spec
(folder `"abc"`, file `"img.png"`, source variant, one-hour ttl, issued at
2024-01-01 00:00). -/
theorem C1_roundtrip_valid_witness :
    ((∀ b ∈ lit "abc", 0 < b ∧ b < 256) ∧ (∀ b ∈ lit "img.png", 0 < b ∧ b < 256)
      ∧ PyDateTime.Valid ⟨2024, 1, 1, 0, 0, 0⟩
      ∧ 1000 ≤ (addSeconds ⟨2024, 1, 1, 0, 0, 0⟩ ((some 3600).getD 0)).year
      ∧ (addSeconds ⟨2024, 1, 1, 0, 0, 0⟩ ((some 3600).getD 0)).year ≤ 9999)
    ∧ (downloadUrlFor Hzero (some (lit "testkey")) ⟨2024, 1, 1, 0, 0, 0⟩
          (lit "abc") (lit "img.png") false (some 3600) =
        .ok (lit "/file/download/"
          ++ urlsafeB64encode (filePathFor (lit "abc") (lit "img.png") false
              ++ 0 :: expiryStamp ⟨2024, 1, 1, 0, 0, 0⟩ (some 3600))
          ++ lit "?sig="
          ++ hexdigest (hmacBytes Hzero (lit "testkey")
              (urlsafeB64encode (filePathFor (lit "abc") (lit "img.png") false
                ++ 0 :: expiryStamp ⟨2024, 1, 1, 0, 0, 0⟩ (some 3600)))))
      ∧ verifyDownloadURL Hzero (some (lit "testkey")) ⟨2024, 1, 1, 0, 0, 0⟩
          (urlsafeB64encode (filePathFor (lit "abc") (lit "img.png") false
            ++ 0 :: expiryStamp ⟨2024, 1, 1, 0, 0, 0⟩ (some 3600)))
          (hexdigest (hmacBytes Hzero (lit "testkey")
            (urlsafeB64encode (filePathFor (lit "abc") (lit "img.png") false
              ++ 0 :: expiryStamp ⟨2024, 1, 1, 0, 0, 0⟩ (some 3600)))))
        = .ok (true, some (filePathFor (lit "abc") (lit "img.png") false))) :=
  ⟨⟨by decide, by decide, by decide, by decide, by decide⟩,
    C1_roundtrip_valid Hzero (lit "testkey") ⟨2024, 1, 1, 0, 0, 0⟩
      (lit "abc") (lit "img.png") false (some 3600)
      (by decide) (by decide) (by decide) (by decide) (by decide)⟩

/-- C9: the concrete scenario: with secret key `"testkey"`, folder
`"abc"`, fileName `"img.png"`, derived false, ttl 60 minutes, issued at
2024-01-01 00:00, the issued token carries the payload
`"abc/source/img.png" ++ NUL ++ "202401010100"`; verifying it at
2024-01-01 00:30 yields valid and at 2024-01-01 02:00 yields invalid —
for every digest function in place of the external SHA3-384. -/
theorem C9_concrete_scenario (H : List Nat → List Nat) :
    downloadUrlFor H (some (lit "testkey")) ⟨2024, 1, 1, 0, 0, 0⟩
        (lit "abc") (lit "img.png") false (some 3600)
      = .ok (lit "/file/download/"
          ++ urlsafeB64encode (lit "abc/source/img.png" ++ 0 :: lit "202401010100")
          ++ lit "?sig="
          ++ hexdigest (hmacBytes H (lit "testkey")
              (urlsafeB64encode (lit "abc/source/img.png" ++ 0 :: lit "202401010100"))))
    ∧ verifyDownloadURL H (some (lit "testkey")) ⟨2024, 1, 1, 0, 30, 0⟩
        (urlsafeB64encode (lit "abc/source/img.png" ++ 0 :: lit "202401010100"))
        (hexdigest (hmacBytes H (lit "testkey")
          (urlsafeB64encode (lit "abc/source/img.png" ++ 0 :: lit "202401010100"))))
      = .ok (true, some (lit "abc/source/img.png"))
    ∧ verifyDownloadURL H (some (lit "testkey")) ⟨2024, 1, 1, 2, 0, 0⟩
        (urlsafeB64encode (lit "abc/source/img.png" ++ 0 :: lit "202401010100"))
        (hexdigest (hmacBytes H (lit "testkey")
          (urlsafeB64encode (lit "abc/source/img.png" ++ 0 :: lit "202401010100"))))
      = .ok (false, some (lit "abc/source/img.png")) := by
  refine ⟨rfl, ?_, ?_⟩
  · unfold verifyDownloadURL
    rw [hmacVerify_sign_self H (lit "testkey")
      (urlsafeB64encode (lit "abc/source/img.png" ++ 0 :: lit "202401010100"))]
    decide
  · unfold verifyDownloadURL
    rw [hmacVerify_sign_self H (lit "testkey")
      (urlsafeB64encode (lit "abc/source/img.png" ++ 0 :: lit "202401010100"))]
    decide
